import Mathlib

/-!
# Capturit payment service: verification of the webhook core

A shallow embedding of the webhook ingestion and workflow orchestration
core of the payment service, with theorems checking the specification
claims against it.

The embedding follows the TypeScript sources:

* `src/services/event-deduplication.service.ts` — the in-memory dedup
  cache (`EventDeduplicationService`).  A JavaScript `Map` is modelled as
  an insertion-ordered association list with unique keys; `Date.now()`
  values are passed explicitly as `Int` milliseconds.
* `src/routes/webhook.routes.ts` — the `POST /webhook` endpoint.
* `src/services/webhook.service.ts` — the event handlers for recurring
  invoices, subscription updates and storage-addon cancellation.
* `src/services/phoenix.service.ts` — the checkout-completed workflow:
  storage-addon purchase, invoice plan derivation (`createInvoice`),
  subscription-record creation and project-request selection
  (`createProject`).
* `src/routes/session.routes.ts` — the `GET /auth/session/:sessionId`
  auto-login endpoint.

Database access is modelled by explicit state passing (lists of rows, or
lookup functions standing for `SELECT ... LIMIT 1`); external calls
(notifications, the project provisioner, Stripe fetches) do not affect
the properties proved here and are modelled only as far as the claims
need them.
-/

namespace Capturit

/-! ## Dedup cache (`event-deduplication.service.ts`) -/

/-- A cache entry, `interface ProcessedEvent` of the source. -/
structure ProcessedEvent where
  eventId : String
  eventType : String
  /-- `processedAt` stores `Date` millisecond time (`Date.getTime()`). -/
  processedAt : Int
deriving DecidableEq, Repr

/-- `private processedEvents: Map<string, ProcessedEvent>`: a JavaScript
`Map` keeps insertion order and unique keys; we model it as an
insertion-ordered association list. -/
abbrev EventMap := List (String × ProcessedEvent)

/-- `Map.get`: the entry stored under a key, if any. -/
def mapGet (m : EventMap) (eventId : String) : Option ProcessedEvent :=
  (m.find? (fun p => p.1 == eventId)).map Prod.snd

/-- `Map.delete`: remove the entry stored under a key (a `Map` holds at
most one entry per key, so removing every matching entry is the same). -/
def mapDelete (m : EventMap) (eventId : String) : EventMap :=
  m.filter (fun p => p.1 != eventId)

/-- `Map.set`: overwrite in place when the key is present (keeping its
position, as a JavaScript `Map` does), append otherwise. -/
def mapSet (m : EventMap) (eventId : String) (v : ProcessedEvent) : EventMap :=
  if m.any (fun p => p.1 == eventId) then
    m.map (fun p => if p.1 == eventId then (eventId, v) else p)
  else m ++ [(eventId, v)]

/-- `EVENT_TTL_MS = 24 * 60 * 60 * 1000` (24 hours). -/
def EVENT_TTL_MS : Int := 24 * 60 * 60 * 1000

/-- `MAX_CACHE_SIZE = 10000`. -/
def MAX_CACHE_SIZE : Nat := 10000

/-- `isDuplicate(eventId)`: returns the boolean result together with the
cache after the lazy purge of an expired entry (the source mutates
`this.processedEvents` in the expired branch). -/
def isDuplicate (m : EventMap) (eventId : String) (now : Int) : Bool × EventMap :=
  match mapGet m eventId with
  | none => (false, m)
  | some existing =>
    if now - existing.processedAt > EVENT_TTL_MS then (false, mapDelete m eventId)
    else (true, m)

/-- `removeOldestEvents(count)`: sort the entries by `processedAt`
ascending (`Array.prototype.sort` is stable, as `List.mergeSort` is),
take the first `count` and delete them. -/
def removeOldestEvents (m : EventMap) (count : Nat) : EventMap :=
  let events := (m.mergeSort (fun a b => decide (a.2.processedAt ≤ b.2.processedAt))).take count
  events.foldl (fun acc p => mapDelete acc p.1) m

/-- `markAsProcessed(eventId, eventType)`.  `Math.floor(MAX_CACHE_SIZE * 0.1)`
is exactly `MAX_CACHE_SIZE / 10 = 1000` in `Nat` division. -/
def markAsProcessed (m : EventMap) (eventId eventType : String) (now : Int) : EventMap :=
  let m1 := if MAX_CACHE_SIZE ≤ m.length then removeOldestEvents m (MAX_CACHE_SIZE / 10) else m
  mapSet m1 eventId { eventId := eventId, eventType := eventType, processedAt := now }

/-- `tryAcquire(eventId, eventType)`: check-and-mark. -/
def tryAcquire (m : EventMap) (eventId eventType : String) (now : Int) : Bool × EventMap :=
  match isDuplicate m eventId now with
  | (true, m1) => (false, m1)
  | (false, m1) => (true, markAsProcessed m1 eventId eventType now)

/-- `release(eventId)`. -/
def release (m : EventMap) (eventId : String) : EventMap :=
  mapDelete m eventId

/-! ### Association-list lemmas -/

theorem mapGet_eq_none_iff (m : EventMap) (k : String) :
    mapGet m k = none ↔ m.any (fun p => p.1 == k) = false := by
  simp [mapGet, List.find?_eq_none, List.any_eq_false]

theorem mapGet_mapDelete_self (m : EventMap) (k : String) :
    mapGet (mapDelete m k) k = none := by
  rw [mapGet_eq_none_iff]
  simp only [mapDelete, List.any_eq_false, List.mem_filter]
  intro p hp
  have := hp.2
  simpa [bne] using this

theorem any_mapDelete_self (m : EventMap) (k : String) :
    (mapDelete m k).any (fun p => p.1 == k) = false := by
  rw [← mapGet_eq_none_iff]
  exact mapGet_mapDelete_self m k

theorem any_mapDelete_of_any_eq_false (m : EventMap) (k k' : String)
    (h : m.any (fun p => p.1 == k) = false) :
    (mapDelete m k').any (fun p => p.1 == k) = false := by
  simp only [List.any_eq_false] at h ⊢
  intro p hp
  exact h p (List.mem_of_mem_filter hp)

theorem any_foldl_mapDelete_of_any_eq_false (evs : List (String × ProcessedEvent))
    (m : EventMap) (k : String) (h : m.any (fun p => p.1 == k) = false) :
    (evs.foldl (fun acc p => mapDelete acc p.1) m).any (fun p => p.1 == k) = false := by
  induction evs generalizing m with
  | nil => exact h
  | cons e evs ih =>
    exact ih _ (any_mapDelete_of_any_eq_false _ _ _ h)

theorem any_removeOldestEvents_of_any_eq_false (m : EventMap) (c : Nat) (k : String)
    (h : m.any (fun p => p.1 == k) = false) :
    (removeOldestEvents m c).any (fun p => p.1 == k) = false :=
  any_foldl_mapDelete_of_any_eq_false _ _ _ h

theorem mapSet_of_absent (m : EventMap) (k : String) (v : ProcessedEvent)
    (h : m.any (fun p => p.1 == k) = false) :
    mapSet m k v = m ++ [(k, v)] := by
  simp [mapSet, h]

theorem mapGet_append_single_self (m : EventMap) (k : String) (v : ProcessedEvent)
    (h : m.any (fun p => p.1 == k) = false) :
    mapGet (m ++ [(k, v)]) k = some v := by
  have hm : m.find? (fun p => p.1 == k) = none := by
    rw [List.find?_eq_none]
    simp only [List.any_eq_false] at h
    exact h
  simp [mapGet, List.find?_append, hm]

/-- An entry of `markAsProcessed` at a key that is absent from the cache:
the stamped record is inserted and found. -/
theorem mapGet_markAsProcessed_self (m : EventMap) (eid ety : String) (now : Int)
    (h : m.any (fun p => p.1 == eid) = false) :
    mapGet (markAsProcessed m eid ety now) eid =
      some { eventId := eid, eventType := ety, processedAt := now } := by
  unfold markAsProcessed
  by_cases hlen : MAX_CACHE_SIZE ≤ m.length
  · simp only [hlen, if_true]
    have h1 := any_removeOldestEvents_of_any_eq_false m (MAX_CACHE_SIZE / 10) eid h
    rw [mapSet_of_absent _ _ _ h1]
    exact mapGet_append_single_self _ _ _ h1
  · simp only [hlen, if_false]
    rw [mapSet_of_absent _ _ _ h]
    exact mapGet_append_single_self _ _ _ h

/-! ### C1 -/

/-- **C1.** `tryAcquire(e, t)` returns `false` exactly when a record for
`e` is present with age at most `EVENT_TTL_MS` (24h), and leaves the
cache unchanged in that case; otherwise (absent, or older than the TTL)
it inserts a record for `e` stamped with the current time and returns
`true` — in particular an event id re-delivered after the TTL window
yields `true` again. -/
theorem tryAcquire_dedup_spec (m : EventMap) (eventId eventType : String) (now : Int) :
    ((tryAcquire m eventId eventType now).1 = false ↔
      ∃ e, mapGet m eventId = some e ∧ now - e.processedAt ≤ EVENT_TTL_MS)
    ∧ ((tryAcquire m eventId eventType now).1 = false →
        (tryAcquire m eventId eventType now).2 = m)
    ∧ ((tryAcquire m eventId eventType now).1 = true →
        mapGet (tryAcquire m eventId eventType now).2 eventId =
          some { eventId := eventId, eventType := eventType, processedAt := now })
    ∧ (∀ e, mapGet m eventId = some e → EVENT_TTL_MS < now - e.processedAt →
        (tryAcquire m eventId eventType now).1 = true) := by
  cases hm : mapGet m eventId with
  | none =>
    have hd : isDuplicate m eventId now = (false, m) := by
      simp [isDuplicate, hm]
    have ht : tryAcquire m eventId eventType now =
        (true, markAsProcessed m eventId eventType now) := by
      simp [tryAcquire, hd]
    rw [ht]
    refine ⟨by simp [hm], by simp, fun _ => ?_, fun e he _ => by simp⟩
    exact mapGet_markAsProcessed_self m eventId eventType now
      ((mapGet_eq_none_iff m eventId).mp hm)
  | some e =>
    by_cases hage : now - e.processedAt > EVENT_TTL_MS
    · have hd : isDuplicate m eventId now = (false, mapDelete m eventId) := by
        simp [isDuplicate, hm, if_pos hage]
      have ht : tryAcquire m eventId eventType now =
          (true, markAsProcessed (mapDelete m eventId) eventId eventType now) := by
        simp [tryAcquire, hd]
      rw [ht]
      refine ⟨?_, by simp, fun _ => ?_, fun e' he' hgt => rfl⟩
      · constructor
        · intro h
          exact absurd h (by simp)
        · rintro ⟨e', he', hle⟩
          cases he'
          exact absurd hle (by omega)
      · exact mapGet_markAsProcessed_self _ eventId eventType now
          (any_mapDelete_self m eventId)
    · have hd : isDuplicate m eventId now = (true, m) := by
        simp [isDuplicate, hm, if_neg hage]
      have ht : tryAcquire m eventId eventType now = (false, m) := by
        simp [tryAcquire, hd]
      rw [ht]
      refine ⟨⟨fun _ => ⟨e, rfl, by omega⟩, fun _ => rfl⟩, fun _ => rfl, by simp,
        fun e' he' hgt => ?_⟩
      cases he'
      exact absurd hgt hage

/-! ## Webhook endpoint (`webhook.routes.ts`) -/

/-- The two fields of a parsed Stripe event that the route reads. -/
structure WEvent where
  id : String
  type : String
deriving DecidableEq, Repr

/-- Whether `webhookService.handleEvent(event)` resolves or throws. -/
inductive HandlerResult where
  | ok
  | thrown
deriving DecidableEq, Repr

/-- The HTTP responses of `POST /webhook`. -/
inductive WebhookReply where
  /-- `200 {received: true}`, with `duplicate: true` when deduplicated. -/
  | received (duplicate : Bool)
  /-- `400` (missing signature, or signature verification failure). -/
  | badRequest
  /-- `500 {error: "Webhook handler failed"}`. -/
  | serverError
deriving DecidableEq, Repr

/-- The `POST /webhook` handler of `createWebhookRoutes`.  `sig` is the
`stripe-signature` header; `verify` is the outcome of
`webhookService.verifyEvent` (`Except.error` = it threw a signature
verification error, in which case `eventId` is still `undefined` so the
catch block does not release anything); `handle` says whether
`webhookService.handleEvent` resolves or throws.  Returns the response
and the dedup cache afterwards. -/
def webhookPost (sig : Option String) (verify : Except Unit WEvent)
    (handle : WEvent → HandlerResult) (m : EventMap) (now : Int) :
    WebhookReply × EventMap :=
  match sig with
  | none => (.badRequest, m)
  | some _ =>
    match verify with
    | .error _ => (.badRequest, m)
    | .ok event =>
      match tryAcquire m event.id event.type now with
      | (false, m1) => (.received true, m1)
      | (true, m1) =>
        match handle event with
        | .ok => (.received false, m1)
        | .thrown => (.serverError, release m1 event.id)

/-! ### C2 -/

/-- **C2.** If handling an event `e` throws after `tryAcquire(e)`
returned `true`, the webhook endpoint removes the record for `e` via
`release(e)` and responds with HTTP 500; a subsequent delivery of `e` is
then not treated as a duplicate (`tryAcquire(e)` returns `true` again). -/
theorem webhook_release_on_failure (sigv : String) (e : WEvent)
    (handle : WEvent → HandlerResult) (m : EventMap) (now now2 : Int) (ty2 : String)
    (hacq : (tryAcquire m e.id e.type now).1 = true)
    (hthrow : handle e = HandlerResult.thrown) :
    (webhookPost (some sigv) (Except.ok e) handle m now).1 = WebhookReply.serverError
    ∧ (webhookPost (some sigv) (Except.ok e) handle m now).2 =
        release (tryAcquire m e.id e.type now).2 e.id
    ∧ mapGet (webhookPost (some sigv) (Except.ok e) handle m now).2 e.id = none
    ∧ (tryAcquire (webhookPost (some sigv) (Except.ok e) handle m now).2 e.id ty2 now2).1
        = true := by
  rcases hq : tryAcquire m e.id e.type now with ⟨b, m1⟩
  rw [hq] at hacq
  simp only at hacq
  subst hacq
  have hw : webhookPost (some sigv) (Except.ok e) handle m now =
      (WebhookReply.serverError, release m1 e.id) := by
    simp only [webhookPost, hq, hthrow]
  rw [hw]
  have hnone : mapGet (release m1 e.id) e.id = none :=
    mapGet_mapDelete_self _ _
  have hd : isDuplicate (release m1 e.id) e.id now2 = (false, release m1 e.id) := by
    simp [isDuplicate, hnone]
  exact ⟨rfl, rfl, hnone, by simp [tryAcquire, hd]⟩

/-- Witness for C2 at a concrete input: an empty cache, an event whose
handler throws. -/
theorem webhook_release_on_failure_witness :
    (webhookPost (some "sig") (Except.ok ⟨"evt_1", "invoice.paid"⟩)
        (fun _ => HandlerResult.thrown) [] 0).1 = WebhookReply.serverError
    ∧ (webhookPost (some "sig") (Except.ok ⟨"evt_1", "invoice.paid"⟩)
        (fun _ => HandlerResult.thrown) [] 0).2 =
        release (tryAcquire [] "evt_1" "invoice.paid" 0).2 "evt_1"
    ∧ mapGet (webhookPost (some "sig") (Except.ok ⟨"evt_1", "invoice.paid"⟩)
        (fun _ => HandlerResult.thrown) [] 0).2 "evt_1" = none
    ∧ (tryAcquire (webhookPost (some "sig") (Except.ok ⟨"evt_1", "invoice.paid"⟩)
        (fun _ => HandlerResult.thrown) [] 0).2 "evt_1" "invoice.paid" 60000).1 = true :=
  webhook_release_on_failure "sig" ⟨"evt_1", "invoice.paid"⟩
    (fun _ => HandlerResult.thrown) [] 0 60000 "invoice.paid" (by decide) rfl

/-! ## Storage quota (`phoenix.service.ts` / `webhook.service.ts`) -/

/-- A `clientStorageQuotas` row (the fields the handlers touch). -/
structure StorageQuota where
  storageLimitBytes : Int
  usedStorageBytes : Int
  fileCount : Nat
deriving DecidableEq, Repr

/-- `const baseStorageBytes = 5 * 1024 * 1024 * 1024` (5 GiB), the base
allotment used by both handlers. -/
def baseStorageBytes : Int := 5 * 1024 * 1024 * 1024

/-- The `clientStorageQuotas` effect of `handleStorageAddonPurchase`
(phoenix.service.ts): `storageGb = parseInt(metadata.storageGb, 10)` (a
non-negative GB count from the checkout metadata), converted to bytes;
an existing quota is increased additively, an absent one is created with
the base 5 GiB allotment plus the addon. -/
def applyStorageAddonPurchase (q : Option StorageQuota) (storageGb : Nat) :
    Option StorageQuota :=
  let storageBytesToAdd : Int := (storageGb : Int) * 1024 * 1024 * 1024
  match q with
  | some quota =>
    some { quota with storageLimitBytes := quota.storageLimitBytes + storageBytesToAdd }
  | none =>
    some { storageLimitBytes := baseStorageBytes + storageBytesToAdd,
           usedStorageBytes := 0, fileCount := 0 }

/-- The `clientStorageQuotas` effect of `handleStorageAddonCancellation`
(webhook.service.ts): no-op when there is nothing to remove or no quota
row; otherwise the new limit is
`Math.max(baseStorageBytes, currentLimit - storageBytesToRemove)`, where
`currentLimit` is `quota.storageLimitBytes || baseStorageBytes` (a zero
stored limit is falsy and falls back to the base). -/
def applyStorageAddonCancellation (q : Option StorageQuota) (storageGb : Nat) :
    Option StorageQuota :=
  let storageBytesToRemove : Int := (storageGb : Int) * 1024 * 1024 * 1024
  if storageBytesToRemove ≤ 0 then q
  else
    match q with
    | none => none
    | some quota =>
      let currentLimit :=
        if quota.storageLimitBytes = 0 then baseStorageBytes else quota.storageLimitBytes
      let newLimit := max baseStorageBytes (currentLimit - storageBytesToRemove)
      some { quota with storageLimitBytes := newLimit }

/-- One storage-addon lifecycle event applied to a client's quota. -/
inductive StorageOp where
  | purchase (storageGb : Nat)
  | cancel (storageGb : Nat)
deriving DecidableEq, Repr

/-- Apply one storage-addon event. -/
def applyStorageOp (q : Option StorageQuota) : StorageOp → Option StorageQuota
  | .purchase gb => applyStorageAddonPurchase q gb
  | .cancel gb => applyStorageAddonCancellation q gb

/-- Apply a sequence of storage-addon events, oldest first. -/
def applyStorageOps (ops : List StorageOp) (q : Option StorageQuota) :
    Option StorageQuota :=
  ops.foldl applyStorageOp q

/-- The storage-floor invariant: whenever a quota row exists, its limit
is at least the 5 GiB base allotment. -/
def storageFloorInv (q : Option StorageQuota) : Prop :=
  ∀ s, q = some s → baseStorageBytes ≤ s.storageLimitBytes

theorem storageFloorInv_purchase (q : Option StorageQuota) (gb : Nat)
    (h : storageFloorInv q) : storageFloorInv (applyStorageAddonPurchase q gb) := by
  cases q with
  | none =>
    intro s hs
    simp only [applyStorageAddonPurchase, Option.some.injEq] at hs
    subst hs
    have : (0 : Int) ≤ (gb : Int) * 1024 * 1024 * 1024 := by positivity
    simp only
    omega
  | some quota =>
    intro s hs
    simp only [applyStorageAddonPurchase, Option.some.injEq] at hs
    subst hs
    have hbase := h quota rfl
    have : (0 : Int) ≤ (gb : Int) * 1024 * 1024 * 1024 := by positivity
    simp only
    omega

theorem storageFloorInv_cancel (q : Option StorageQuota) (gb : Nat)
    (h : storageFloorInv q) : storageFloorInv (applyStorageAddonCancellation q gb) := by
  unfold applyStorageAddonCancellation
  by_cases hr : ((gb : Int) * 1024 * 1024 * 1024) ≤ 0
  · simpa [hr] using h
  · simp only [hr, if_false]
    cases q with
    | none => intro s hs; cases hs
    | some quota =>
      intro s hs
      simp only [Option.some.injEq] at hs
      subst hs
      simp only
      exact le_max_left _ _

/-! ### C3 -/

/-- **C3.** For every sequence of storage-addon purchases and
storage-addon subscription cancellations applied to a client's quota,
`storageLimitBytes` never drops below the 5 GiB base allotment — even in
a sequence that cancels more GB than was ever purchased. -/
theorem storage_quota_floor (ops : List StorageOp) (q0 : Option StorageQuota)
    (h : storageFloorInv q0) : storageFloorInv (applyStorageOps ops q0) := by
  induction ops generalizing q0 with
  | nil => exact h
  | cons op ops ih =>
    refine ih (applyStorageOp q0 op) ?_
    cases op with
    | purchase gb => exact storageFloorInv_purchase q0 gb h
    | cancel gb => exact storageFloorInv_cancel q0 gb h

/-- Witness for C3 at a concrete input: starting with no quota row, buy
1 GB, then cancel 5 GB (more than was ever purchased): the resulting
limit is clamped to the 5 GiB base. -/
theorem storage_quota_floor_witness :
    applyStorageOps [StorageOp.purchase 1, StorageOp.cancel 5] none =
      some { storageLimitBytes := baseStorageBytes, usedStorageBytes := 0, fileCount := 0 }
    ∧ baseStorageBytes ≤
        ({ storageLimitBytes := baseStorageBytes, usedStorageBytes := 0,
           fileCount := 0 } : StorageQuota).storageLimitBytes := by
  have heval : applyStorageOps [StorageOp.purchase 1, StorageOp.cancel 5] none =
      some { storageLimitBytes := baseStorageBytes, usedStorageBytes := 0,
             fileCount := 0 } := by decide
  exact ⟨heval,
    storage_quota_floor [StorageOp.purchase 1, StorageOp.cancel 5] none
      (fun s hs => by cases hs) _ heval⟩

/-! ## Recurring payments (`webhook.service.ts`, `handleInvoicePaid`) -/

/-- An `invoices` row (the fields `handleInvoicePaid` reads or writes).
The source stores `amount` as `String((stripeInvoice.amount_paid || 0) / 100)`;
we keep the cent amount, which determines that string. -/
structure LInvoice where
  clientId : String
  invoiceNumber : String
  amountCents : Nat
  currency : String
  status : String
  paidAt : Option Int
  planId : Option String
  planName : Option String
  description : Option String
  stripePaymentIntentId : Option String
  stripeCustomerId : Option String
deriving DecidableEq, Repr

/-- A `clientSubscriptions` row (the fields the handlers touch). -/
structure LSub where
  stripeSubscriptionId : String
  clientId : String
  planId : String
  status : String
  currentPeriodStart : Int
  currentPeriodEnd : Int
  cancelAtPeriodEnd : Bool
  trialEnd : Option Int
deriving DecidableEq, Repr

/-- The Ledger Store tables `handleInvoicePaid` works on. -/
structure Ledger where
  invoices : List LInvoice
  subs : List LSub
deriving DecidableEq, Repr

/-- The fields of a `Stripe.Invoice` payload that `handleInvoicePaid`
reads.  `subscription` is `none` when the Stripe invoice has no attached
subscription (string and expanded-object payloads both yield the id). -/
structure StripeInvoiceEv where
  id : String
  subscription : Option String
  billing_reason : String
  amount_paid : Nat
  currency : Option String
  payment_intent : String
  customer : Option String
  period_start : Int
  period_end : Int
  /-- `status_transitions?.paid_at`, epoch seconds. -/
  paid_at : Option Int
deriving DecidableEq, Repr

/-- The invoice row inserted for a genuine recurring charge
(`INV-REC-...`; `Date.now()` passed as `now`). -/
def recurringInvoice (sub : LSub) (ev : StripeInvoiceEv) (now : Int) : LInvoice :=
  { clientId := sub.clientId
    invoiceNumber := "INV-REC-" ++ toString now ++ "-" ++ sub.clientId.take 8
    amountCents := ev.amount_paid
    currency := ev.currency.getD "eur"
    status := "paid"
    paidAt := some (match ev.paid_at with | some t => t * 1000 | none => now)
    planId := some sub.planId
    planName := some ("Abonnement " ++ sub.planId)
    description := some ("Paiement récurrent - " ++ ev.billing_reason)
    stripePaymentIntentId := some ev.payment_intent
    stripeCustomerId := ev.customer }

/-- `handleInvoicePaid(stripeInvoice)`: skip without a subscription; skip
when the subscription row is unknown; skip the initial
`subscription_create` charge (already recorded by the checkout path);
skip when an invoice for this `payment_intent` was already recorded;
otherwise insert a paid recurring invoice row and refresh the
subscription's period bounds and status. -/
def handleInvoicePaid (db : Ledger) (ev : StripeInvoiceEv) (now : Int) : Ledger :=
  match ev.subscription with
  | none => db
  | some subId =>
    match db.subs.find? (fun s => s.stripeSubscriptionId == subId) with
    | none => db
    | some sub =>
      if ev.billing_reason == "subscription_create" then db
      else
        match db.invoices.find?
            (fun i => i.stripePaymentIntentId == some ev.payment_intent) with
        | some _ => db
        | none =>
          { invoices := db.invoices ++ [recurringInvoice sub ev now]
            subs := db.subs.map (fun s =>
              if s.stripeSubscriptionId == subId then
                { s with currentPeriodStart := ev.period_start * 1000
                         currentPeriodEnd := ev.period_end * 1000
                         status := "active" }
              else s) }

/-- The number of paid invoice rows in the ledger. -/
def paidCount (db : Ledger) : Nat :=
  (db.invoices.filter (fun i => i.status == "paid")).length

/-! ### C4 -/

/-- **C4.** For an `invoice.paid` event carrying a subscription whose
`ClientSubscription` row exists: `billing_reason = subscription_create`
stops with no ledger writes (so a checkout-completed charge is not
double-counted); an already-recorded `payment_intent` stops with no
writes; otherwise exactly one new paid invoice row is appended and the
subscription's period bounds and status (set to `active`) are refreshed,
so the paid-invoice count grows by exactly one. -/
theorem handleInvoicePaid_spec (db : Ledger) (ev : StripeInvoiceEv) (now : Int)
    (subId : String) (sub : LSub)
    (hsub : ev.subscription = some subId)
    (hfind : db.subs.find? (fun s => s.stripeSubscriptionId == subId) = some sub) :
    (ev.billing_reason = "subscription_create" → handleInvoicePaid db ev now = db)
    ∧ (ev.billing_reason ≠ "subscription_create" →
        ∀ inv0, db.invoices.find?
            (fun i => i.stripePaymentIntentId == some ev.payment_intent) = some inv0 →
          handleInvoicePaid db ev now = db)
    ∧ (ev.billing_reason ≠ "subscription_create" →
        db.invoices.find?
            (fun i => i.stripePaymentIntentId == some ev.payment_intent) = none →
          (handleInvoicePaid db ev now).invoices
              = db.invoices ++ [recurringInvoice sub ev now]
          ∧ (recurringInvoice sub ev now).status = "paid"
          ∧ (handleInvoicePaid db ev now).subs = db.subs.map (fun s =>
              if s.stripeSubscriptionId == subId then
                { s with currentPeriodStart := ev.period_start * 1000
                         currentPeriodEnd := ev.period_end * 1000
                         status := "active" }
              else s)
          ∧ paidCount (handleInvoicePaid db ev now) = paidCount db + 1)
    ∧ (ev.billing_reason = "subscription_create" →
        paidCount (handleInvoicePaid db ev now) = paidCount db) := by
  refine ⟨?_, ?_, ?_, ?_⟩
  · intro hbr
    simp [handleInvoicePaid, hsub, hfind, hbr]
  · intro hbr inv0 hinv
    simp [handleInvoicePaid, hsub, hfind, hbr, hinv]
  · intro hbr hinv
    have hres : handleInvoicePaid db ev now =
        { invoices := db.invoices ++ [recurringInvoice sub ev now]
          subs := db.subs.map (fun s =>
            if s.stripeSubscriptionId == subId then
              { s with currentPeriodStart := ev.period_start * 1000
                       currentPeriodEnd := ev.period_end * 1000
                       status := "active" }
            else s) } := by
      simp [handleInvoicePaid, hsub, hfind, hbr, hinv]
    refine ⟨by rw [hres], rfl, by rw [hres], ?_⟩
    rw [hres]
    simp [paidCount, List.filter_append, recurringInvoice]
  · intro hbr
    simp [handleInvoicePaid, hsub, hfind, hbr]

/-- A concrete subscription row for the C4 witness. -/
def witnessSub : LSub :=
  { stripeSubscriptionId := "sub_1", clientId := "client_1", planId := "growth"
    status := "active", currentPeriodStart := 0, currentPeriodEnd := 10
    cancelAtPeriodEnd := false, trialEnd := none }

/-- A concrete ledger for the C4 witness: the one paid invoice written by
the checkout-completed path, and its subscription row. -/
def witnessDb : Ledger :=
  { invoices := [{ clientId := "client_1", invoiceNumber := "INV-A-1"
                   amountCents := 29900, currency := "eur", status := "paid"
                   paidAt := some 0, planId := some "growth"
                   planName := some "Growth", description := none
                   stripePaymentIntentId := some "pi_0"
                   stripeCustomerId := some "cus_1" }]
    subs := [witnessSub] }

/-- A concrete `invoice.paid` payload for the C4 witness. -/
def witnessEv : StripeInvoiceEv :=
  { id := "in_1", subscription := some "sub_1"
    billing_reason := "subscription_cycle", amount_paid := 29900
    currency := some "eur", payment_intent := "pi_1", customer := some "cus_1"
    period_start := 100, period_end := 200, paid_at := some 50 }

/-- Witness for C4 at a concrete input: a ledger holding the one paid
checkout invoice and its subscription row; `invoice.paid` with
`billing_reason = subscription_cycle` and a fresh payment intent. -/
theorem handleInvoicePaid_spec_witness :
    ((witnessEv.billing_reason = "subscription_create" →
        handleInvoicePaid witnessDb witnessEv 1000 = witnessDb)
    ∧ (witnessEv.billing_reason ≠ "subscription_create" →
        ∀ inv0, witnessDb.invoices.find?
            (fun i => i.stripePaymentIntentId == some witnessEv.payment_intent)
            = some inv0 →
          handleInvoicePaid witnessDb witnessEv 1000 = witnessDb)
    ∧ (witnessEv.billing_reason ≠ "subscription_create" →
        witnessDb.invoices.find?
            (fun i => i.stripePaymentIntentId == some witnessEv.payment_intent) = none →
          (handleInvoicePaid witnessDb witnessEv 1000).invoices
              = witnessDb.invoices ++ [recurringInvoice witnessSub witnessEv 1000]
          ∧ (recurringInvoice witnessSub witnessEv 1000).status = "paid"
          ∧ (handleInvoicePaid witnessDb witnessEv 1000).subs
              = witnessDb.subs.map (fun s =>
              if s.stripeSubscriptionId == "sub_1" then
                { s with currentPeriodStart := witnessEv.period_start * 1000
                         currentPeriodEnd := witnessEv.period_end * 1000
                         status := "active" }
              else s)
          ∧ paidCount (handleInvoicePaid witnessDb witnessEv 1000)
              = paidCount witnessDb + 1)
    ∧ (witnessEv.billing_reason = "subscription_create" →
        paidCount (handleInvoicePaid witnessDb witnessEv 1000) = paidCount witnessDb)) :=
  handleInvoicePaid_spec witnessDb witnessEv 1000 "sub_1" witnessSub rfl (by decide)

/-! ## Checkout metadata and the Phoenix workflow (`phoenix.service.ts`)

Metadata values are `Option String` (`none` = the key is absent);
JavaScript truthiness on such a value (`undefined` and `""` are falsy)
is `truthy` below. -/

/-- The checkout-session metadata fields the modelled code reads
(`CheckoutMetadata` of `webhook.types.ts`).  The source field `case` is a
Lean keyword and is called `caseTag` here. -/
structure CheckoutMetadataL where
  caseTag : Option String := none
  pendingUserEmail : Option String := none
  webPlanId : Option String := none
  productionPlanId : Option String := none
  planId : Option String := none
  modulesJson : Option String := none
  moduleCount : Option String := none
deriving DecidableEq, Repr

/-- JavaScript truthiness of an optional string: `undefined` and the
empty string are falsy. -/
def truthy (o : Option String) : Bool :=
  match o with
  | some s => !s.isEmpty
  | none => false

/-- `a || d` for an optional string `a` and a (string) default `d`. -/
def jsOr (o : Option String) (d : String) : String :=
  match o with
  | some s => if s.isEmpty then d else s
  | none => d

/-- `a || b` for two optional strings: the first, when truthy, else the
second (which may itself be absent or falsy). -/
def firstTruthy (a b : Option String) : Option String :=
  if truthy a then a else b

/-- `parseInt(s, 10)` restricted to the non-negative inputs this service
produces: the longest leading digit run, `none` when there is none
(JavaScript `NaN`). -/
def parseDigits (s : String) : Option Nat :=
  let ds := s.toList.takeWhile (fun c => c.isDigit)
  if ds.isEmpty then none
  else some (ds.foldl (fun n c => n * 10 + (c.toNat - 48)) 0)

/-- `parseInt(metadata.moduleCount || '0', 10)`, with `NaN` collapsed to
`0` (the only use is the comparison `moduleCount > 0`, on which `NaN`
and `0` agree). -/
def moduleCountVal (md : CheckoutMetadataL) : Nat :=
  (parseDigits (jsOr md.moduleCount "0")).getD 0

/-- The three request shapes `createProject` can send to the project
service. -/
inductive ProjectRequestShape where
  /-- `createDynamicMultiModuleProject` → `POST .../create-with-modules`
  with the modules parsed from `modulesJson`. -/
  | dynamicMulti
  /-- `createLegacyMultiModuleProject` → `POST .../create-with-modules`
  with the fixed web-plan + production-plan pair. -/
  | legacyMulti
  /-- `createSingleModuleProject` → `POST .../create-with-workflow`. -/
  | single
deriving DecidableEq, Repr

/-- The branch selection of `createProject` (phoenix.service.ts):
`modulesJson` truthy with `moduleCount > 0` wins; otherwise the legacy
two-module shape needs `caseType === 'C'` and both legacy plan-id
fields; otherwise the single-module shape. -/
def selectProjectRequest (caseType : String) (md : CheckoutMetadataL) :
    ProjectRequestShape :=
  if truthy md.modulesJson && decide (0 < moduleCountVal md) then .dynamicMulti
  else if caseType == "C" && truthy md.webPlanId && truthy md.productionPlanId then
    .legacyMulti
  else .single

/-! ### C5 -/

/-- Checkout metadata with both legacy plan-id fields but a case label
other than `C`: the C5 counterexample input. -/
def caseAMetadata : CheckoutMetadataL :=
  { caseTag := some "A", webPlanId := some "growth",
    productionPlanId := some "signature" }

/-- **C5 (counterexample to the claim as stated).** With case label `A`,
both legacy plan-id fields present and no module count, the claim
requires the legacy two-module shape, but `createProject` selects the
single-module `create-with-workflow` shape: its legacy branch also
requires the case label to be `C`. -/
theorem selectProjectRequest_claim_counterexample :
    truthy caseAMetadata.webPlanId = true
    ∧ truthy caseAMetadata.productionPlanId = true
    ∧ caseAMetadata.moduleCount = none
    ∧ caseAMetadata.modulesJson = none
    ∧ selectProjectRequest "A" caseAMetadata = ProjectRequestShape.single
    ∧ ProjectRequestShape.single ≠ ProjectRequestShape.legacyMulti := by
  decide

/-- **C5 (amended).** The request shape is (a) the multi-module
create-with-modules request whenever `modulesJson` is present (truthy)
and `moduleCount > 0`; (b) the legacy two-module shape whenever (a) does
not apply, the case label is `C`, and both legacy plan-id fields are
present; (c) the single-module create-with-workflow shape in every other
case. -/
theorem selectProjectRequest_cases (caseType : String) (md : CheckoutMetadataL) :
    (truthy md.modulesJson = true → 0 < moduleCountVal md →
      selectProjectRequest caseType md = ProjectRequestShape.dynamicMulti)
    ∧ (¬(truthy md.modulesJson = true ∧ 0 < moduleCountVal md) →
        caseType = "C" → truthy md.webPlanId = true →
        truthy md.productionPlanId = true →
        selectProjectRequest caseType md = ProjectRequestShape.legacyMulti)
    ∧ (¬(truthy md.modulesJson = true ∧ 0 < moduleCountVal md) →
        ¬(caseType = "C" ∧ truthy md.webPlanId = true
            ∧ truthy md.productionPlanId = true) →
        selectProjectRequest caseType md = ProjectRequestShape.single) := by
  refine ⟨?_, ?_, ?_⟩
  · intro h1 h2
    simp [selectProjectRequest, h1, h2]
  · intro hnot hc h1 h2
    have hfirst : (truthy md.modulesJson && decide (0 < moduleCountVal md)) = false := by
      cases hm : truthy md.modulesJson with
      | false => simp
      | true =>
        have hz : moduleCountVal md = 0 := by
          by_contra hnz
          exact hnot ⟨hm, Nat.pos_of_ne_zero hnz⟩
        simp [hz]
    simp [selectProjectRequest, hfirst, hc, h1, h2]
  · intro hnot1 hnot2
    have hfirst : (truthy md.modulesJson && decide (0 < moduleCountVal md)) = false := by
      cases hm : truthy md.modulesJson with
      | false => simp
      | true =>
        have hz : moduleCountVal md = 0 := by
          by_contra hnz
          exact hnot1 ⟨hm, Nat.pos_of_ne_zero hnz⟩
        simp [hz]
    have hsecond : (caseType == "C" && truthy md.webPlanId
        && truthy md.productionPlanId) = false := by
      cases hc : (caseType == "C") with
      | false => simp
      | true =>
        cases hw : truthy md.webPlanId with
        | false => simp
        | true =>
          cases hp : truthy md.productionPlanId with
          | false => simp
          | true => exact absurd ⟨by simpa using hc, hw, hp⟩ hnot2
    simp [selectProjectRequest, hfirst, hsecond]

/-! ## Invoice plan derivation (`createInvoice`, phoenix.service.ts) -/

/-- One entry of the parsed `modulesJson` array (`ModuleData` of
`webhook.types.ts`; `planName` and `type` are optional because the
source guards them with `||` and `?.`). -/
structure ModuleDataL where
  planId : String
  planName : Option String := none
  priceCents : Option Int := none
  type : Option String := none
deriving DecidableEq, Repr

/-- `String.prototype.includes`. -/
def jsIncludes (s pat : String) : Bool :=
  s.toList.tails.any (fun t => pat.toList.isPrefixOf t)

/-- `m.type?.includes('web')` (optional chaining: `undefined` when the
type is absent, which is falsy). -/
def jsTypeIncludesWeb (t : Option String) : Bool :=
  match t with
  | some s => jsIncludes s "web"
  | none => false

/-- `id.charAt(0).toUpperCase() + id.slice(1)`. -/
def jsCapitalize (s : String) : String :=
  match s.toList with
  | [] => ""
  | c :: cs => String.mk (c.toUpper :: cs)

/-- `.join(' + ')`. -/
def joinPlus (l : List String) : String :=
  String.intercalate " + " l

/-- The `modulesData` local of `createInvoice`: `JSON.parse` of a truthy
`metadata.modulesJson`, with a parse failure caught and left as `[]`.
`JSON.parse` is the platform's and is passed in as `parse`. -/
def modulesDataOf (parse : String → Option (List ModuleDataL))
    (md : CheckoutMetadataL) : List ModuleDataL :=
  match md.modulesJson with
  | none => []
  | some s => if s.isEmpty then [] else (parse s).getD []

/-- The `getPlanDisplayName` helper of `createInvoice`: a falsy id gives
the fallback; an id found in `modulesData` with a truthy `planName`
gives that name; otherwise the capitalized id. -/
def getPlanDisplayName (modulesData : List ModuleDataL) (id : Option String)
    (fallback : String) : String :=
  match id with
  | none => fallback
  | some i =>
    if i.isEmpty then fallback
    else
      match modulesData.find? (fun m => m.planId == i) with
      | some m =>
        match m.planName with
        | some nm => if nm.isEmpty then jsCapitalize i else nm
        | none => jsCapitalize i
      | none => jsCapitalize i

/-- The `planId`/`planName` computation of `createInvoice`
(phoenix.service.ts), by case label: `'C'` = web + production, `'A'` =
web only, anything else = the production-only `B` branch. -/
def derivePlan (parse : String → Option (List ModuleDataL)) (caseType : String)
    (md : CheckoutMetadataL) : String × String :=
  let modulesData := modulesDataOf parse md
  if caseType == "C" then
    let planId := jsOr md.webPlanId "growth"
    let webName := getPlanDisplayName modulesData md.webPlanId "Formule Web"
    let productionModules := modulesData.filter
      (fun m => (m.type == some "production") || !(jsTypeIncludesWeb m.type))
    let productionNames :=
      if 0 < productionModules.length then
        joinPlus (productionModules.map (fun m => jsOr m.planName m.planId))
      else jsOr md.productionPlanId "Production"
    (planId, webName ++ " + " ++ productionNames)
  else if caseType == "A" then
    (jsOr (firstTruthy md.webPlanId md.planId) "growth",
     getPlanDisplayName modulesData (firstTruthy md.webPlanId md.planId) "Formule Web")
  else
    let planId := jsOr (firstTruthy md.productionPlanId md.planId) "signature"
    if 0 < modulesData.length then
      (planId, joinPlus (modulesData.map (fun m => jsOr m.planName m.planId)))
    else
      (planId,
       getPlanDisplayName modulesData (firstTruthy md.productionPlanId md.planId)
         "Production")

/-- The first module of the spec's case-B example. -/
def packA : ModuleDataL :=
  { planId := "p1", planName := some "Pack A", priceCents := some 10000,
    type := some "production" }

/-- The second module of the spec's case-B example. -/
def packB : ModuleDataL :=
  { planId := "p2", planName := some "Pack B", priceCents := some 5000,
    type := some "production" }

/-- The spec's case-B example `modulesJson` value. -/
def packsJson : String :=
  "[\x7b\"planId\":\"p1\",\"planName\":\"Pack A\",\"priceCents\":10000,\"type\":\"production\"\x7d,\x7b\"planId\":\"p2\",\"planName\":\"Pack B\",\"priceCents\":5000,\"type\":\"production\"\x7d]"

/-- The spec's case-B example metadata. -/
def packsMetadata : CheckoutMetadataL :=
  { caseTag := some "B", modulesJson := some packsJson, moduleCount := some "2" }

/-! ### C6 -/

/-- **C6.** The invoice's `planId`/`planName` follow the metadata case
label: case A gives the web plan (its module-list entry's name when one
matches, the capitalized id otherwise); case B with a module list joins
the modules' plan names with `" + "` (the spec's two-pack example gives
`"Pack A + Pack B"`); case C joins the web plan name and the production
plan name(s) with `" + "`. -/
theorem derivePlan_case_names :
    (∀ (parse : String → Option (List ModuleDataL)) (md : CheckoutMetadataL),
      modulesDataOf parse md ≠ [] →
      (derivePlan parse "B" md).2 =
        joinPlus ((modulesDataOf parse md).map (fun m => jsOr m.planName m.planId)))
    ∧ (∀ parse : String → Option (List ModuleDataL),
        parse packsJson = some [packA, packB] →
        (derivePlan parse "B" packsMetadata).2 = "Pack A + Pack B")
    ∧ (∀ (parse : String → Option (List ModuleDataL)) (md : CheckoutMetadataL)
        (wp : String) (m : ModuleDataL) (nm : String),
        md.webPlanId = some wp → wp.isEmpty = false →
        (modulesDataOf parse md).find? (fun mo => mo.planId == wp) = some m →
        m.planName = some nm → nm.isEmpty = false →
        derivePlan parse "A" md = (wp, nm))
    ∧ (∀ (parse : String → Option (List ModuleDataL)) (md : CheckoutMetadataL)
        (wp : String),
        md.webPlanId = some wp → wp.isEmpty = false →
        (modulesDataOf parse md).find? (fun mo => mo.planId == wp) = none →
        derivePlan parse "A" md = (wp, jsCapitalize wp))
    ∧ (∀ (parse : String → Option (List ModuleDataL)) (md : CheckoutMetadataL)
        (wp pp : String),
        md.webPlanId = some wp → wp.isEmpty = false →
        md.productionPlanId = some pp → pp.isEmpty = false →
        modulesDataOf parse md = [] →
        derivePlan parse "C" md = (wp, jsCapitalize wp ++ " + " ++ pp))
    ∧ (∀ (parse : String → Option (List ModuleDataL)) (md : CheckoutMetadataL),
        ((modulesDataOf parse md).filter
          (fun m => (m.type == some "production") || !(jsTypeIncludesWeb m.type))) ≠ [] →
        (derivePlan parse "C" md).2 =
          getPlanDisplayName (modulesDataOf parse md) md.webPlanId "Formule Web"
            ++ " + "
            ++ joinPlus (((modulesDataOf parse md).filter
                (fun m => (m.type == some "production") || !(jsTypeIncludesWeb m.type))).map
              (fun m => jsOr m.planName m.planId))) := by
  refine ⟨?_, ?_, ?_, ?_, ?_, ?_⟩
  · intro parse md hne
    have hlen : 0 < (modulesDataOf parse md).length := List.length_pos.mpr hne
    simp [derivePlan, hlen]
  · intro parse hp
    have hne : packsJson.isEmpty = false := by
      set_option maxRecDepth 8192 in decide
    have hmd : modulesDataOf parse packsMetadata = [packA, packB] := by
      simp [modulesDataOf, packsMetadata, hne, hp]
    simp [derivePlan, hmd, packA, packB, jsOr, joinPlus]
    rfl
  · intro parse md wp m nm hwp hwpne hfind hnm hnmne
    have htr : truthy (some wp) = true := by simp [truthy, hwpne]
    simp [derivePlan, firstTruthy, htr, hwp, jsOr, hwpne,
      getPlanDisplayName, hfind, hnm, hnmne]
  · intro parse md wp hwp hwpne hfind
    have htr : truthy (some wp) = true := by simp [truthy, hwpne]
    simp [derivePlan, firstTruthy, htr, hwp, jsOr, hwpne,
      getPlanDisplayName, hfind]
  · intro parse md wp pp hwp hwpne hpp hppne hmd
    simp [derivePlan, hmd, hwp, hpp, jsOr, hwpne, hppne, getPlanDisplayName]
  · intro parse md hne
    have hlen : 0 < ((modulesDataOf parse md).filter
        (fun m => (m.type == some "production") || !(jsTypeIncludesWeb m.type))).length :=
      List.length_pos.mpr hne
    simp [derivePlan, hlen]

/-! ## Case label and subscription-record creation
(`handleCheckoutSessionCompleted` / `createProjectAndWorkflow`) -/

/-- `const caseType = metadata.case || 'A'`
(handleCheckoutSessionCompleted). -/
def caseTypeOf (md : CheckoutMetadataL) : String :=
  jsOr md.caseTag "A"

/-- The guard of `createSubscriptionRecord` in `createProjectAndWorkflow`:
`if (subscriptionId && (caseType === 'A' || caseType === 'C'))`. -/
def shouldCreateSubscriptionRecord (subscriptionId : Option String)
    (caseType : String) : Bool :=
  truthy subscriptionId && (caseType == "A" || caseType == "C")

/-! ### C9 -/

/-- **C9.** A missing `metadata.case` defaults the case label to `A`;
any label other than `A` and `C` is treated as case `B` by the invoice
plan derivation; and a `ClientSubscription` record is created only when
a `subscriptionId` is present and the label is exactly `A` or `C` — so
an unrecognized label gets case-B invoicing and no subscription row even
with a subscription id present. -/
theorem checkout_case_label_handling :
    (∀ md : CheckoutMetadataL, md.caseTag = none → caseTypeOf md = "A")
    ∧ (∀ md : CheckoutMetadataL, md.caseTag = some "" → caseTypeOf md = "A")
    ∧ (∀ (parse : String → Option (List ModuleDataL)) (md : CheckoutMetadataL)
        (c : String), c ≠ "A" → c ≠ "C" →
        derivePlan parse c md = derivePlan parse "B" md)
    ∧ (∀ (subId : Option String) (c : String), c ≠ "A" → c ≠ "C" →
        shouldCreateSubscriptionRecord subId c = false)
    ∧ (∀ (subId : Option String) (c : String),
        shouldCreateSubscriptionRecord subId c = true →
        truthy subId = true ∧ (c = "A" ∨ c = "C"))
    ∧ shouldCreateSubscriptionRecord (some "sub_1") "X" = false := by
  refine ⟨?_, ?_, ?_, ?_, ?_, by decide⟩
  · intro md h
    simp [caseTypeOf, jsOr, h]
  · intro md h
    simp only [caseTypeOf, jsOr, h]
    decide
  · intro parse md c hA hC
    have h1 : (c == "C") = false := by simpa using hC
    have h2 : (c == "A") = false := by simpa using hA
    simp [derivePlan, h1, h2]
  · intro subId c hA hC
    have h1 : (c == "C") = false := by simpa using hC
    have h2 : (c == "A") = false := by simpa using hA
    simp [shouldCreateSubscriptionRecord, h1, h2]
  · intro subId c h
    simp only [shouldCreateSubscriptionRecord, Bool.and_eq_true, Bool.or_eq_true,
      beq_iff_eq] at h
    exact ⟨h.1, h.2⟩

/-! ## Subscription updates (`webhook.service.ts`, `handleSubscriptionUpdated`) -/

/-- The fields of a `Stripe.Subscription` payload that
`handleSubscriptionUpdated` reads. -/
structure StripeSubscription where
  id : String
  status : String
  current_period_start : Int
  current_period_end : Int
  cancel_at_period_end : Bool
  trial_end : Option Int
deriving DecidableEq, Repr

/-- The status mapping switch of `handleSubscriptionUpdated`: it starts
from the stored row's status (`let status = subscription.status`) and
only the five listed provider statuses change it. -/
def mapStripeStatus (prev : String) : String → String
  | "active" => "active"
  | "past_due" => "past_due"
  | "canceled" => "cancelled"
  | "trialing" => "trialing"
  | "unpaid" => "past_due"
  | _ => prev

/-- `handleSubscriptionUpdated(stripeSubscription)`: a state mirror of
the provider's subscription object onto the stored row (found by
`stripeSubscriptionId`; unknown ids are ignored).  Provider epoch-second
fields are stored as `Date` milliseconds. -/
def handleSubscriptionUpdated (subs : List LSub) (ev : StripeSubscription) : List LSub :=
  match subs.find? (fun s => s.stripeSubscriptionId == ev.id) with
  | none => subs
  | some sub =>
    let status := mapStripeStatus sub.status ev.status
    subs.map (fun s =>
      if s.stripeSubscriptionId == ev.id then
        { s with status := status
                 currentPeriodStart := ev.current_period_start * 1000
                 currentPeriodEnd := ev.current_period_end * 1000
                 cancelAtPeriodEnd := ev.cancel_at_period_end
                 trialEnd := ev.trial_end.map (fun t => t * 1000) }
      else s)

/-! ### C10 -/

/-- **C10.** For a `customer.subscription.updated` event whose provider
status is outside `{active, past_due, canceled, trialing, unpaid}`, the
stored row's `status` is left at its previous value while
`currentPeriodStart`, `currentPeriodEnd`, `cancelAtPeriodEnd` and
`trialEnd` are still overwritten from the event (and no other row is
touched). -/
theorem handleSubscriptionUpdated_frame (subs : List LSub) (ev : StripeSubscription)
    (sub : LSub)
    (hfind : subs.find? (fun s => s.stripeSubscriptionId == ev.id) = some sub)
    (h1 : ev.status ≠ "active") (h2 : ev.status ≠ "past_due")
    (h3 : ev.status ≠ "canceled") (h4 : ev.status ≠ "trialing")
    (h5 : ev.status ≠ "unpaid") :
    handleSubscriptionUpdated subs ev = subs.map (fun s =>
      if s.stripeSubscriptionId == ev.id then
        { s with status := sub.status
                 currentPeriodStart := ev.current_period_start * 1000
                 currentPeriodEnd := ev.current_period_end * 1000
                 cancelAtPeriodEnd := ev.cancel_at_period_end
                 trialEnd := ev.trial_end.map (fun t => t * 1000) }
      else s)
    ∧ (handleSubscriptionUpdated subs ev).find?
        (fun s => s.stripeSubscriptionId == ev.id) = some
        { sub with currentPeriodStart := ev.current_period_start * 1000
                   currentPeriodEnd := ev.current_period_end * 1000
                   cancelAtPeriodEnd := ev.cancel_at_period_end
                   trialEnd := ev.trial_end.map (fun t => t * 1000) } := by
  have hms : mapStripeStatus sub.status ev.status = sub.status := by
    unfold mapStripeStatus
    split <;> simp_all
  have hmain : handleSubscriptionUpdated subs ev = subs.map (fun s =>
      if s.stripeSubscriptionId == ev.id then
        { s with status := sub.status
                 currentPeriodStart := ev.current_period_start * 1000
                 currentPeriodEnd := ev.current_period_end * 1000
                 cancelAtPeriodEnd := ev.cancel_at_period_end
                 trialEnd := ev.trial_end.map (fun t => t * 1000) }
      else s) := by
    unfold handleSubscriptionUpdated
    rw [hfind]
    simp only [hms]
  refine ⟨hmain, ?_⟩
  rw [hmain]
  have hpred : (fun s => s.stripeSubscriptionId == ev.id) ∘ (fun s : LSub =>
      if s.stripeSubscriptionId == ev.id then
        { s with status := sub.status
                 currentPeriodStart := ev.current_period_start * 1000
                 currentPeriodEnd := ev.current_period_end * 1000
                 cancelAtPeriodEnd := ev.cancel_at_period_end
                 trialEnd := ev.trial_end.map (fun t => t * 1000) }
      else s) = (fun s => s.stripeSubscriptionId == ev.id) := by
    funext s
    by_cases h : (s.stripeSubscriptionId == ev.id) = true
    · have he : s.stripeSubscriptionId = ev.id := by simpa using h
      simp [Function.comp, he]
    · simp [Function.comp, h]
  rw [List.find?_map, hpred, hfind]
  have hsub : sub.stripeSubscriptionId = ev.id := by
    have hp := List.find?_some hfind
    simpa using hp
  simp [hsub]

/-- A stored subscription row for the C10 witness. -/
def trialingRow : LSub :=
  { stripeSubscriptionId := "sub_9", clientId := "client_9", planId := "growth"
    status := "trialing", currentPeriodStart := 0, currentPeriodEnd := 5
    cancelAtPeriodEnd := false, trialEnd := some 7 }

/-- A `customer.subscription.updated` payload with the unmapped provider
status `paused`, for the C10 witness. -/
def pausedEv : StripeSubscription :=
  { id := "sub_9", status := "paused", current_period_start := 11
    current_period_end := 22, cancel_at_period_end := true, trial_end := none }

/-- Witness for C10 at a concrete input: a `paused` update leaves
`status = "trialing"` and overwrites the period fields. -/
theorem handleSubscriptionUpdated_frame_witness :
    handleSubscriptionUpdated [trialingRow] pausedEv = [trialingRow].map (fun s =>
      if s.stripeSubscriptionId == pausedEv.id then
        { s with status := trialingRow.status
                 currentPeriodStart := pausedEv.current_period_start * 1000
                 currentPeriodEnd := pausedEv.current_period_end * 1000
                 cancelAtPeriodEnd := pausedEv.cancel_at_period_end
                 trialEnd := pausedEv.trial_end.map (fun t => t * 1000) }
      else s)
    ∧ (handleSubscriptionUpdated [trialingRow] pausedEv).find?
        (fun s => s.stripeSubscriptionId == pausedEv.id) = some
        { trialingRow with
            currentPeriodStart := pausedEv.current_period_start * 1000
            currentPeriodEnd := pausedEv.current_period_end * 1000
            cancelAtPeriodEnd := pausedEv.cancel_at_period_end
            trialEnd := pausedEv.trial_end.map (fun t => t * 1000) } :=
  handleSubscriptionUpdated_frame [trialingRow] pausedEv trialingRow (by decide)
    (by decide) (by decide) (by decide) (by decide) (by decide)

/-! ## Auto-login endpoint (`session.routes.ts`) -/

/-- A staged pending-auth entry (`PendingAuthToken` of
`webhook.types.ts`). -/
structure PendingAuthTokenL where
  accessToken : String
  refreshToken : String
  userId : String
  email : String
  createdAt : Int
deriving DecidableEq, Repr

/-- The invoice fields the session route reads. -/
structure SessionInvoice where
  id : String
  clientId : String
  status : String
deriving DecidableEq, Repr

/-- The user fields the session route reads. -/
structure SessionUser where
  id : String
  email : String
deriving DecidableEq, Repr

/-- The responses of `GET /auth/session/:sessionId`. -/
inductive SessionReply where
  /-- `200` with the cached staged tokens. -/
  | okCached (accessToken refreshToken userId email : String)
  /-- `200` with a freshly minted access/refresh token pair for the
  given user. -/
  | okFresh (userId email : String)
  /-- `404` (session or user not found). -/
  | notFound
  /-- `400` (payment not completed yet). -/
  | notPaid
deriving DecidableEq, Repr

/-- `pendingAuthTokens.get(sessionId)`. -/
def pendingGet (pending : List (String × PendingAuthTokenL)) (sid : String) :
    Option PendingAuthTokenL :=
  (pending.find? (fun p => p.1 == sid)).map Prod.snd

/-- `pendingAuthTokens.delete(sessionId)`. -/
def pendingDelete (pending : List (String × PendingAuthTokenL)) (sid : String) :
    List (String × PendingAuthTokenL) :=
  pending.filter (fun p => p.1 != sid)

/-- The database fallback of the session route: invoice by
`stripeCheckoutSessionId` (`findInvoice` stands for the
`SELECT ... LIMIT 1`), then its status, then the owning user
(`findUser`), then a freshly minted token pair. -/
def sessionDbFallback (findInvoice : String → Option SessionInvoice)
    (findUser : String → Option SessionUser) (sessionId : String) : SessionReply :=
  match findInvoice sessionId with
  | none => .notFound
  | some invoice =>
    if invoice.status != "paid" then .notPaid
    else
      match findUser invoice.clientId with
      | none => .notFound
      | some user => .okFresh user.id user.email

/-- The `GET /auth/session/:sessionId` handler of `createSessionRoutes`:
a live in-memory entry (age at most 10 minutes) is returned directly
(deleted once older than the 2-minute grace window); an expired entry is
deleted and the database path runs; no entry also runs the database
path. -/
def sessionGet (pending : List (String × PendingAuthTokenL))
    (findInvoice : String → Option SessionInvoice)
    (findUser : String → Option SessionUser) (sessionId : String) (now : Int) :
    SessionReply × List (String × PendingAuthTokenL) :=
  match pendingGet pending sessionId with
  | some authData =>
    let tokenAge := now - authData.createdAt
    if tokenAge > 10 * 60 * 1000 then
      (sessionDbFallback findInvoice findUser sessionId, pendingDelete pending sessionId)
    else
      let pending2 :=
        if tokenAge > 2 * 60 * 1000 then pendingDelete pending sessionId else pending
      (.okCached authData.accessToken authData.refreshToken authData.userId
        authData.email, pending2)
  | none => (sessionDbFallback findInvoice findUser sessionId, pending)

/-! ### C8 -/

/-- **C8.** For a session id with no live in-memory pending-auth entry
(absent, or created more than 10 minutes earlier), the endpoint runs the
database path and succeeds with fresh tokens if and only if an invoice
exists for the session, its status is `paid`, and its owning user
exists; it answers 404 when no invoice or no user exists, and 400 when
the invoice exists but is not yet paid. -/
theorem session_fallback_spec (pending : List (String × PendingAuthTokenL))
    (findInvoice : String → Option SessionInvoice)
    (findUser : String → Option SessionUser) (sessionId : String) (now : Int)
    (hstale : pendingGet pending sessionId = none
      ∨ ∃ a, pendingGet pending sessionId = some a
          ∧ 10 * 60 * 1000 < now - a.createdAt) :
    ((∃ uid em, (sessionGet pending findInvoice findUser sessionId now).1 =
        SessionReply.okFresh uid em) ↔
      ∃ inv u, findInvoice sessionId = some inv ∧ inv.status = "paid"
        ∧ findUser inv.clientId = some u)
    ∧ (findInvoice sessionId = none →
        (sessionGet pending findInvoice findUser sessionId now).1 =
          SessionReply.notFound)
    ∧ (∀ inv, findInvoice sessionId = some inv → inv.status ≠ "paid" →
        (sessionGet pending findInvoice findUser sessionId now).1 =
          SessionReply.notPaid)
    ∧ (∀ inv, findInvoice sessionId = some inv → inv.status = "paid" →
        findUser inv.clientId = none →
        (sessionGet pending findInvoice findUser sessionId now).1 =
          SessionReply.notFound)
    ∧ (∀ inv u, findInvoice sessionId = some inv → inv.status = "paid" →
        findUser inv.clientId = some u →
        (sessionGet pending findInvoice findUser sessionId now).1 =
          SessionReply.okFresh u.id u.email) := by
  have hred : (sessionGet pending findInvoice findUser sessionId now).1 =
      sessionDbFallback findInvoice findUser sessionId := by
    rcases hstale with h | ⟨a, ha, hage⟩
    · simp [sessionGet, h]
    · have hage6 : (600000 : Int) < now - a.createdAt := by
        norm_num at hage
        exact hage
      simp [sessionGet, ha, hage6]
  rw [hred]
  refine ⟨?_, ?_, ?_, ?_, ?_⟩
  · constructor
    · rintro ⟨uid, em, hok⟩
      cases hinv : findInvoice sessionId with
      | none => rw [sessionDbFallback, hinv] at hok; cases hok
      | some inv =>
        by_cases hst : inv.status = "paid"
        · cases hu : findUser inv.clientId with
          | none =>
            rw [sessionDbFallback, hinv] at hok
            simp [hst, hu] at hok
          | some u => exact ⟨inv, u, rfl, hst, hu⟩
        · rw [sessionDbFallback, hinv] at hok
          have hbne : (inv.status != "paid") = true := by simpa using hst
          simp [hbne] at hok
    · rintro ⟨inv, u, hinv, hst, hu⟩
      exact ⟨u.id, u.email, by simp [sessionDbFallback, hinv, hst, hu]⟩
  · intro h
    simp [sessionDbFallback, h]
  · intro inv hinv hst
    have hbne : (inv.status != "paid") = true := by simpa using hst
    simp [sessionDbFallback, hinv, hbne]
  · intro inv hinv hst hu
    simp [sessionDbFallback, hinv, hst, hu]
  · intro inv u hinv hst hu
    simp [sessionDbFallback, hinv, hst, hu]

/-- Witness for C8 at a concrete input: an empty pending-auth map, a
paid invoice for the session and an existing owning user. -/
theorem session_fallback_spec_witness :
    ((∃ uid em, (sessionGet [] (fun _ => some ⟨"inv_1", "client_1", "paid"⟩)
        (fun _ => some ⟨"client_1", "c@example.com"⟩) "cs_1" 0).1 =
        SessionReply.okFresh uid em) ↔
      ∃ inv u, (fun _ : String => some (⟨"inv_1", "client_1", "paid"⟩ : SessionInvoice)) "cs_1"
          = some inv ∧ inv.status = "paid"
        ∧ (fun _ : String => some (⟨"client_1", "c@example.com"⟩ : SessionUser)) inv.clientId
          = some u)
    ∧ ((fun _ : String => some (⟨"inv_1", "client_1", "paid"⟩ : SessionInvoice)) "cs_1"
          = none →
        (sessionGet [] (fun _ => some ⟨"inv_1", "client_1", "paid"⟩)
          (fun _ => some ⟨"client_1", "c@example.com"⟩) "cs_1" 0).1 =
          SessionReply.notFound)
    ∧ (∀ inv, (fun _ : String => some (⟨"inv_1", "client_1", "paid"⟩ : SessionInvoice)) "cs_1"
          = some inv → inv.status ≠ "paid" →
        (sessionGet [] (fun _ => some ⟨"inv_1", "client_1", "paid"⟩)
          (fun _ => some ⟨"client_1", "c@example.com"⟩) "cs_1" 0).1 =
          SessionReply.notPaid)
    ∧ (∀ inv, (fun _ : String => some (⟨"inv_1", "client_1", "paid"⟩ : SessionInvoice)) "cs_1"
          = some inv → inv.status = "paid" →
        (fun _ : String => some (⟨"client_1", "c@example.com"⟩ : SessionUser)) inv.clientId
          = none →
        (sessionGet [] (fun _ => some ⟨"inv_1", "client_1", "paid"⟩)
          (fun _ => some ⟨"client_1", "c@example.com"⟩) "cs_1" 0).1 =
          SessionReply.notFound)
    ∧ (∀ inv u, (fun _ : String => some (⟨"inv_1", "client_1", "paid"⟩ : SessionInvoice)) "cs_1"
          = some inv → inv.status = "paid" →
        (fun _ : String => some (⟨"client_1", "c@example.com"⟩ : SessionUser)) inv.clientId
          = some u →
        (sessionGet [] (fun _ => some ⟨"inv_1", "client_1", "paid"⟩)
          (fun _ => some ⟨"client_1", "c@example.com"⟩) "cs_1" 0).1 =
          SessionReply.okFresh u.id u.email) :=
  session_fallback_spec [] (fun _ => some ⟨"inv_1", "client_1", "paid"⟩)
    (fun _ => some ⟨"client_1", "c@example.com"⟩) "cs_1" 0 (Or.inl rfl)

/-! ## Capacity eviction (`markAsProcessed` / `removeOldestEvents`) -/

theorem foldl_mapDelete_of_append (pre suf : EventMap)
    (h : ((pre ++ suf).map Prod.fst).Nodup) :
    pre.foldl (fun acc p => mapDelete acc p.1) (pre ++ suf) = suf := by
  induction pre with
  | nil => rfl
  | cons p pre ih =>
    have hsplit : (p.1 :: (pre ++ suf).map Prod.fst).Nodup := by
      have hc : (p :: pre) ++ suf = p :: (pre ++ suf) := rfl
      rw [hc, List.map_cons] at h
      exact h
    have hnotin : p.1 ∉ (pre ++ suf).map Prod.fst := (List.nodup_cons.mp hsplit).1
    have htail : ((pre ++ suf).map Prod.fst).Nodup := (List.nodup_cons.mp hsplit).2
    have hdel : mapDelete ((p :: pre) ++ suf) p.1 = pre ++ suf := by
      show (p :: (pre ++ suf)).filter (fun q => q.1 != p.1) = pre ++ suf
      rw [List.filter_cons]
      have hp : (p.1 != p.1) = false := by simp
      rw [hp]
      simp only [Bool.false_eq_true, if_false]
      rw [List.filter_eq_self]
      intro q hq
      have hne : q.1 ≠ p.1 := by
        intro he
        exact hnotin (he ▸ List.mem_map_of_mem Prod.fst hq)
      simpa using hne
    calc (p :: pre).foldl (fun acc q => mapDelete acc q.1) ((p :: pre) ++ suf)
        = pre.foldl (fun acc q => mapDelete acc q.1) (mapDelete ((p :: pre) ++ suf) p.1) :=
          rfl
      _ = pre.foldl (fun acc q => mapDelete acc q.1) (pre ++ suf) := by rw [hdel]
      _ = suf := ih htail

/-- On a cache whose entries are already in `processedAt` order with
distinct keys, `removeOldestEvents` drops exactly the first `c`
entries. -/
theorem removeOldestEvents_eq_drop (m : EventMap) (c : Nat)
    (hsorted : m.Pairwise (fun a b => a.2.processedAt ≤ b.2.processedAt))
    (hkeys : (m.map Prod.fst).Nodup) :
    removeOldestEvents m c = m.drop c := by
  have hms : m.mergeSort (fun a b => decide (a.2.processedAt ≤ b.2.processedAt)) = m :=
    List.mergeSort_of_sorted (hsorted.imp fun h => decide_eq_true h)
  unfold removeOldestEvents
  simp only [hms]
  have hres := foldl_mapDelete_of_append (m.take c) (m.drop c)
    (by rw [List.take_append_drop]; exact hkeys)
  rw [List.take_append_drop] at hres
  exact hres

theorem find?_key_of_mem_nodup (m : EventMap) (q : String × ProcessedEvent)
    (hq : q ∈ m) (hkeys : (m.map Prod.fst).Nodup) :
    m.find? (fun p => p.1 == q.1) = some q := by
  induction m with
  | nil => cases hq
  | cons h t ih =>
    rcases List.mem_cons.mp hq with he | ht
    · subst he
      simp [List.find?_cons]
    · have hne : (h.1 == q.1) = false := by
        have hnotin : h.1 ∉ t.map Prod.fst := by
          have := hkeys
          rw [List.map_cons] at this
          exact (List.nodup_cons.mp this).1
        have : h.1 ≠ q.1 := by
          intro he
          exact hnotin (he ▸ List.mem_map_of_mem Prod.fst ht)
        simpa using this
      rw [List.find?_cons, hne]
      exact ih ht (by
        have := hkeys
        rw [List.map_cons] at this
        exact (List.nodup_cons.mp this).2)

/-! ### C7 -/

/-- **C7.** When the live record count has reached `MAX_CACHE_SIZE`
(10000), `markAsProcessed` removes the `⌊10%⌋ = 1000` records with the
oldest `processedAt` stamps before inserting the new record: the
resulting cache is exactly the newest remainder plus the new entry,
every removed record is at least as old as every kept one, each evicted
id is no longer reported as a duplicate by `tryAcquire`, and each kept
id within the TTL window still is. -/
theorem markAsProcessed_capacity_eviction (s : EventMap) (eid ety : String) (now : Int)
    (hlen : MAX_CACHE_SIZE ≤ s.length)
    (hsorted : s.Pairwise (fun a b => a.2.processedAt ≤ b.2.processedAt))
    (hkeys : (s.map Prod.fst).Nodup)
    (hfresh : s.any (fun p => p.1 == eid) = false) :
    markAsProcessed s eid ety now = s.drop (MAX_CACHE_SIZE / 10)
        ++ [(eid, { eventId := eid, eventType := ety, processedAt := now })]
    ∧ (∀ p ∈ s.take (MAX_CACHE_SIZE / 10), ∀ q ∈ s.drop (MAX_CACHE_SIZE / 10),
        p.2.processedAt ≤ q.2.processedAt)
    ∧ (∀ p ∈ s.take (MAX_CACHE_SIZE / 10), ∀ (ty2 : String) (now2 : Int),
        (tryAcquire (markAsProcessed s eid ety now) p.1 ty2 now2).1 = true)
    ∧ (∀ q ∈ s.drop (MAX_CACHE_SIZE / 10), ∀ (ty2 : String) (now2 : Int),
        now2 - q.2.processedAt ≤ EVENT_TTL_MS →
        (tryAcquire (markAsProcessed s eid ety now) q.1 ty2 now2).1 = false) := by
  have hfreshdrop : (s.drop (MAX_CACHE_SIZE / 10)).any (fun p => p.1 == eid) = false := by
    rw [List.any_eq_false] at hfresh ⊢
    exact fun p hp => hfresh p (List.mem_of_mem_drop hp)
  have hmark : markAsProcessed s eid ety now = s.drop (MAX_CACHE_SIZE / 10)
      ++ [(eid, { eventId := eid, eventType := ety, processedAt := now })] := by
    unfold markAsProcessed
    rw [if_pos hlen, removeOldestEvents_eq_drop s _ hsorted hkeys,
      mapSet_of_absent _ _ _ hfreshdrop]
  have hsplit : (s.take (MAX_CACHE_SIZE / 10)).map Prod.fst
      |>.Disjoint ((s.drop (MAX_CACHE_SIZE / 10)).map Prod.fst) := by
    have := hkeys
    rw [← List.take_append_drop (MAX_CACHE_SIZE / 10) s, List.map_append] at this
    exact (List.nodup_append.mp this).2.2
  have hdropkeys : ((s.drop (MAX_CACHE_SIZE / 10)).map Prod.fst).Nodup := by
    have := hkeys
    rw [← List.take_append_drop (MAX_CACHE_SIZE / 10) s, List.map_append] at this
    exact (List.nodup_append.mp this).2.1
  refine ⟨hmark, ?_, ?_, ?_⟩
  · have hp := List.pairwise_append.mp
      (show ((s.take (MAX_CACHE_SIZE / 10)) ++ (s.drop (MAX_CACHE_SIZE / 10))).Pairwise
          (fun a b => a.2.processedAt ≤ b.2.processedAt) by
        rw [List.take_append_drop]; exact hsorted)
    exact hp.2.2
  · intro p hpmem ty2 now2
    have hpne : p.1 ≠ eid := by
      rw [List.any_eq_false] at hfresh
      simpa using hfresh p (List.mem_of_mem_take hpmem)
    have hget : mapGet (markAsProcessed s eid ety now) p.1 = none := by
      rw [hmark, mapGet_eq_none_iff, List.any_eq_false]
      intro x hx
      rcases List.mem_append.mp hx with hxd | hxs
      · intro hxe
        have hxk : x.1 = p.1 := by simpa using hxe
        exact hsplit (List.mem_map_of_mem Prod.fst hpmem)
          (hxk ▸ List.mem_map_of_mem Prod.fst hxd)
      · have hxe : x = (eid,
            ({ eventId := eid, eventType := ety, processedAt := now } : ProcessedEvent)) := by
          simpa using hxs
        subst hxe
        simp only [beq_iff_eq]
        intro h
        exact hpne h.symm
    have hdup : isDuplicate (markAsProcessed s eid ety now) p.1 now2 =
        (false, markAsProcessed s eid ety now) := by
      simp only [isDuplicate, hget]
    simp only [tryAcquire, hdup]
  · intro q hqmem ty2 now2 hage
    have hfq : (s.drop (MAX_CACHE_SIZE / 10)).find? (fun p => p.1 == q.1) = some q :=
      find?_key_of_mem_nodup _ q hqmem hdropkeys
    have hget : mapGet (markAsProcessed s eid ety now) q.1 = some q.2 := by
      rw [hmark]
      unfold mapGet
      rw [List.find?_append, hfq]
      rfl
    have hnotexp : ¬ now2 - q.2.processedAt > EVENT_TTL_MS := by omega
    have hdup : isDuplicate (markAsProcessed s eid ety now) q.1 now2 =
        (true, markAsProcessed s eid ety now) := by
      simp only [isDuplicate, hget]
      rw [if_neg hnotexp]
    simp only [tryAcquire, hdup]

/-- The `i`-th distinct event id of the C7 witness cache (`i` letters
`a`, so that ids of distinct indices differ). -/
def dedupKey (i : Nat) : String :=
  String.mk (List.replicate i 'a')

/-- The `i`-th entry of the C7 witness cache, stamped at time `i`. -/
def dedupEntry (i : Nat) : String × ProcessedEvent :=
  (dedupKey i, { eventId := dedupKey i, eventType := "payment_intent.succeeded",
                 processedAt := (i : Int) })

/-- A cache filled with `MAX_CACHE_SIZE` distinct event ids, oldest
first. -/
def dedupFullCache : EventMap :=
  (List.range MAX_CACHE_SIZE).map dedupEntry

theorem dedupKey_injective : Function.Injective dedupKey := by
  intro i j h
  have hd : List.replicate i 'a' = List.replicate j 'a' := congrArg String.data h
  simpa using congrArg List.length hd

theorem dedupKey_ne_b (i : Nat) : dedupKey i ≠ "b" := by
  intro h
  have hd : List.replicate i 'a' = "b".data := congrArg String.data h
  have hone : i = 1 := by simpa using congrArg List.length hd
  subst hone
  simp [List.replicate_one] at hd

theorem dedupFullCache_length : MAX_CACHE_SIZE ≤ dedupFullCache.length := by
  simp [dedupFullCache]

theorem dedupFullCache_sorted :
    dedupFullCache.Pairwise (fun a b => a.2.processedAt ≤ b.2.processedAt) := by
  refine List.pairwise_map.mpr ?_
  refine (List.pairwise_lt_range _).imp ?_
  intro i j h
  simp only [dedupEntry]
  exact_mod_cast Nat.le_of_lt h

theorem dedupFullCache_keys_nodup : (dedupFullCache.map Prod.fst).Nodup := by
  have hmm : dedupFullCache.map Prod.fst = (List.range MAX_CACHE_SIZE).map dedupKey := by
    simp only [dedupFullCache, List.map_map]
    rfl
  rw [hmm]
  exact (List.nodup_range _).map dedupKey_injective

theorem dedupFullCache_fresh : dedupFullCache.any (fun p => p.1 == "b") = false := by
  rw [List.any_eq_false]
  intro p hp
  rcases List.mem_map.mp hp with ⟨i, _, hpe⟩
  subst hpe
  simpa [dedupEntry] using dedupKey_ne_b i

/-- Witness for C7 at a concrete input: the full 10000-entry cache with
increasing stamps, and a fresh event id `"b"`. -/
theorem markAsProcessed_capacity_eviction_witness :
    markAsProcessed dedupFullCache "b" "checkout.session.completed" 10000
        = dedupFullCache.drop (MAX_CACHE_SIZE / 10)
          ++ [("b", { eventId := "b", eventType := "checkout.session.completed",
                      processedAt := 10000 })]
    ∧ (∀ p ∈ dedupFullCache.take (MAX_CACHE_SIZE / 10),
        ∀ q ∈ dedupFullCache.drop (MAX_CACHE_SIZE / 10),
        p.2.processedAt ≤ q.2.processedAt)
    ∧ (∀ p ∈ dedupFullCache.take (MAX_CACHE_SIZE / 10), ∀ (ty2 : String) (now2 : Int),
        (tryAcquire (markAsProcessed dedupFullCache "b" "checkout.session.completed"
          10000) p.1 ty2 now2).1 = true)
    ∧ (∀ q ∈ dedupFullCache.drop (MAX_CACHE_SIZE / 10), ∀ (ty2 : String) (now2 : Int),
        now2 - q.2.processedAt ≤ EVENT_TTL_MS →
        (tryAcquire (markAsProcessed dedupFullCache "b" "checkout.session.completed"
          10000) q.1 ty2 now2).1 = false) :=
  markAsProcessed_capacity_eviction dedupFullCache "b" "checkout.session.completed"
    10000 dedupFullCache_length dedupFullCache_sorted dedupFullCache_keys_nodup
    dedupFullCache_fresh

end Capturit
